import Mathlib

/-!
# Verification of the Fe assignment-lowering stage

A shallow embedding of `crates/yulgen/src/mappers/assignments.rs`: the
`assign` function that lowers a Fe assignment statement to a Yul statement,
dispatching on the final locations of the value and target expressions.

Collaborator code that lives outside this file's source (the analyzer's
`Location`, `Type`/`FixedSize`, expression attributes, the `data_operations`
primitives and the Yul IR from `yultsur`) is modelled from the spec, as
indicated in each doc comment. Rust panics (`unreachable!`, `expect`,
`panic!`) are embedded as `Except` errors.
-/

namespace Yulgen

/-- Yul identifier (yultsur `yul::Identifier`): a wrapped name string. -/
structure Identifier where
  identifier : String
deriving DecidableEq, Repr

/-- Yul expression (yultsur `yul::Expression`): literal, identifier, or
function call (call = identifier plus argument list, as in `yul::FunctionCall`). -/
inductive Expression where
  | Literal (literal : String)
  | Identifier (ident : Identifier)
  | FunctionCall (identifier : Identifier) (arguments : List Expression)

/-- Yul statement fragment used by the lowering (yultsur `yul::Statement`):
an assignment `i := e` (the Rust side carries a list of target identifiers)
or a bare expression statement. -/
inductive Statement where
  | Assignment (identifiers : List Identifier) (expression : Expression)
  | Expression (expression : Expression)

/-- Modelled from the spec: the analyzer's `Location` tag — where a value
resides after evaluation: transient `Value`, scratch-space `Memory`, or
persistent `Storage` with optional slot metadata. -/
inductive Location where
  | Value
  | Memory
  | Storage (nonce : Option Nat)
deriving DecidableEq, Repr

/-- Modelled from the spec: the analyzer's resolved type. Scalars (`Base`)
occupy one 32-byte word; aggregates (`Array`, `Struct`) have a statically
known byte footprint; `Map` has no fixed size, so the `FixedSize`
conversion fails on it. -/
inductive FeType where
  | Base
  | Array (size : Nat)
  | Struct (name : String) (size : Nat)
  | Map
deriving DecidableEq, Repr

/-- Modelled from the spec: `FixedSize` — a type with a statically known
in-space footprint, either a one-word scalar or a multi-word aggregate. -/
inductive FixedSize where
  | Base
  | Array (size : Nat)
  | Struct (name : String) (size : Nat)
deriving DecidableEq, Repr

/-- Modelled from the spec: the static byte footprint of a `FixedSize`
type; scalars occupy one 32-byte word. -/
def FixedSize.size : FixedSize → Nat
  | .Base => 32
  | .Array n => n
  | .Struct _ n => n

/-- Modelled from the spec: `FixedSize::try_from` on a resolved type —
succeeds exactly on types with a statically known footprint. -/
def FixedSize.try_from : FeType → Option FixedSize
  | .Base => some .Base
  | .Array n => some (.Array n)
  | .Struct s n => some (.Struct s n)
  | .Map => none

/-- Modelled from the spec: per-expression metadata attached by the
analyzer — resolved type, declared location, and the optional move
location recording resolved indirection. -/
structure ExpressionAttributes where
  typ : FeType
  location : Location
  move_location : Option Location
deriving DecidableEq, Repr

/-- Modelled from the spec: the final location — the space the actual data
occupies once implicit indirection is resolved; the declared location when
no move is recorded. -/
def ExpressionAttributes.final_location (a : ExpressionAttributes) : Location :=
  a.move_location.getD a.location

/-- Fe AST expression (`fe::Expr`), restricted to the shapes `assign`
inspects: plain names, attribute (field) projections, and subscripts. -/
inductive FeExpr where
  | Name (name : String)
  | Attribute (value : FeExpr) (attr : String)
  | Subscript (value : FeExpr) (index : FeExpr)
deriving DecidableEq, Repr

/-- Fe AST function statement (`fe::FuncStmt`), restricted to the shapes
`assign` inspects: an assignment `target = value`, or any other statement. -/
inductive FuncStmt where
  | Assign (target : FeExpr) (value : FeExpr)
  | Pass
deriving DecidableEq, Repr

/-- Modelled from the spec: the lowering context. It exposes the two
collaborators `assign` consumes: the expression-lowering function
(`expressions::expr`) and the read-only attribute table
(`context.expression_attributes`), both total on the nodes reachable from
an assignment. -/
structure FnContext where
  expr : FeExpr → Expression
  expression_attributes : FeExpr → ExpressionAttributes

/-- The ways `assign` can abort: each constructor embeds one Rust panic
site (`expect("invalid attributes")`, `expr_as_ident`'s panic,
`expr_to_raw_ptr_call`'s panic, `unreachable!("raw sto to mem assign")`,
and the final `unreachable!()` for non-assign statements). -/
inductive AssignError where
  | invalidAttributes
  | notAnIdentifier (e : Expression)
  | notAFunctionCall (e : Expression)
  | rawStoToMem
  | notAnAssign

namespace data_operations

/-- Modelled from the spec: sized scalar load from memory — a `mloadn`
call carrying the value address and the type's footprint. -/
def mload (typ : FixedSize) (mptr : Expression) : Expression :=
  .FunctionCall ⟨"mloadn"⟩ [mptr, .Literal (toString typ.size)]

/-- Modelled from the spec: sized scalar load from storage — a `sloadn`
call carrying the value slot and the type's footprint. -/
def sload (typ : FixedSize) (sptr : Expression) : Expression :=
  .FunctionCall ⟨"sloadn"⟩ [sptr, .Literal (toString typ.size)]

/-- Modelled from the spec: sized scalar store into memory — an `mstoren`
statement carrying the target address, the type's footprint, and the value. -/
def mstore (typ : FixedSize) (mptr value : Expression) : Statement :=
  .Expression (.FunctionCall ⟨"mstoren"⟩ [mptr, .Literal (toString typ.size), value])

/-- Modelled from the spec: sized scalar store into storage — an `sstoren`
statement carrying the target slot, the type's footprint, and the value. -/
def sstore (typ : FixedSize) (sptr value : Expression) : Statement :=
  .Expression (.FunctionCall ⟨"sstoren"⟩ [sptr, .Literal (toString typ.size), value])

/-- Modelled from the spec: sized block copy from a memory region into
storage — one `mcopys` statement carrying source, destination and the
type's footprint. -/
def mcopys (typ : FixedSize) (sptr mptr : Expression) : Statement :=
  .Expression (.FunctionCall ⟨"mcopys"⟩ [mptr, sptr, .Literal (toString typ.size)])

/-- Modelled from the spec: sized block copy from storage into storage —
one `scopys` statement carrying source, destination and the type's
footprint. -/
def scopys (typ : FixedSize) (dest src : Expression) : Statement :=
  .Expression (.FunctionCall ⟨"scopys"⟩ [src, dest, .Literal (toString typ.size)])

end data_operations

/-- `expr_as_ident`: coerces a lowered expression to a plain identifier,
panicking (here: erring) on any other shape. -/
def expr_as_ident : Expression → Except AssignError Identifier
  | .Identifier ident => .ok ident
  | e => .error (.notAnIdentifier e)

/-- `expr_to_raw_ptr_call`: rewrites a lowered function call
`f(args...)` to its raw-accessor sibling `f_raw(args...)`, panicking
(here: erring) when the expression is not a function call. -/
def expr_to_raw_ptr_call : Expression → Except AssignError Expression
  | .FunctionCall identifier arguments =>
      .ok (.FunctionCall ⟨identifier.identifier ++ "_raw"⟩ arguments)
  | e => .error (.notAFunctionCall e)

/-- `assign`: builds a Yul statement from a Fe assignment, dispatching on
the pair of final locations of (value, target); a direct embedding of
`crates/yulgen/src/mappers/assignments.rs`. -/
def assign (context : FnContext) (stmt : FuncStmt) : Except AssignError Statement :=
  match stmt with
  | .Assign target_node value_node =>
    let target := context.expr target_node
    let value := context.expr value_node
    let target_attributes := context.expression_attributes target_node
    let value_attributes := context.expression_attributes value_node
    match FixedSize.try_from target_attributes.typ with
    | none => .error .invalidAttributes
    | some typ =>
      match value_attributes.final_location, target_attributes.final_location with
      | .Memory, .Storage _ => .ok (data_operations.mcopys typ target value)
      | .Memory, .Value =>
        match expr_as_ident target with
        | .error e => .error e
        | .ok t => .ok (.Assignment [t] (data_operations.mload typ value))
      | .Memory, .Memory =>
        match target_node with
        | .Attribute val _ =>
          match (context.expression_attributes val).typ with
          | .Struct _ _ =>
            match expr_to_raw_ptr_call target with
            | .error e => .error e
            | .ok raw =>
                .ok (.Expression (.FunctionCall ⟨"mstoren"⟩ [raw, .Literal "32", value]))
          | _ =>
            match expr_as_ident target with
            | .error e => .error e
            | .ok t => .ok (.Assignment [t] value)
        | _ =>
          match expr_as_ident target with
          | .error e => .error e
          | .ok t => .ok (.Assignment [t] value)
      | .Storage _, .Storage _ => .ok (data_operations.scopys typ target value)
      | .Storage _, .Value =>
        match expr_as_ident target with
        | .error e => .error e
        | .ok t => .ok (.Assignment [t] (data_operations.sload typ value))
      | .Storage _, .Memory => .error .rawStoToMem
      | .Value, .Memory => .ok (data_operations.mstore typ target value)
      | .Value, .Storage _ => .ok (data_operations.sstore typ target value)
      | .Value, .Value =>
        match expr_as_ident target with
        | .error e => .error e
        | .ok t => .ok (.Assignment [t] value)
  | _ => .error .notAnAssign

/-- Extracts the size parameter of the data-movement primitive invoked by a
lowered statement: the footprint literal of an `mcopys`/`scopys` copy, an
`mstoren`/`sstoren` store, or an `mloadn`/`sloadn` load on the right-hand
side of an assignment; `none` when no primitive is invoked. -/
def primSizeArg : Statement → Option String
  | .Expression (.FunctionCall f args) =>
    if f.identifier = "mcopys" ∨ f.identifier = "scopys" then
      match args with
      | [_, _, .Literal s] => some s
      | _ => none
    else if f.identifier = "mstoren" ∨ f.identifier = "sstoren" then
      match args with
      | [_, .Literal s, _] => some s
      | _ => none
    else none
  | .Assignment _ (.FunctionCall f args) =>
    if f.identifier = "mloadn" ∨ f.identifier = "sloadn" then
      match args with
      | [_, .Literal s] => some s
      | _ => none
    else none
  | _ => none

/-! ## Sample contexts for concrete evaluation

Concrete `FnContext`s used to instantiate the theorems below. `ctxNames`
lowers every name to the identifier of the same spelling; `ctxLocs` fixes
the target node `Name "x"` at a given location and type, and every other
node (the value) at another. -/

/-- A context whose attribute table gives the target node `Name "x"` the
attributes `(ttyp, tl)` and every other node `(vtyp, vl)`, and whose
expression lowering maps every name to its identifier. -/
def ctxLocs (vl tl : Location) (vtyp ttyp : FeType) : FnContext where
  expr := fun e =>
    match e with
    | .Name n => .Identifier ⟨n⟩
    | _ => .Literal "0"
  expression_attributes := fun e =>
    match e with
    | .Name "x" => ⟨ttyp, tl, none⟩
    | _ => ⟨vtyp, vl, none⟩

/-- A context for the struct-field cases: the target node is the
projection `p.f`; its parent `Name "p"` resolves to a struct type; the
projection itself lowers to the accessor call `get_f(ptr_p)` and carries
the attributes `(ttyp, Memory)`; every other node is memory-resident of
type `vtyp`. -/
def ctxField (vtyp ttyp : FeType) (tlow : Expression) : FnContext where
  expr := fun e =>
    match e with
    | .Attribute _ _ => tlow
    | .Name n => .Identifier ⟨n⟩
    | _ => .Literal "0"
  expression_attributes := fun e =>
    match e with
    | .Attribute _ _ => ⟨ttyp, .Memory, none⟩
    | .Name "p" => ⟨.Struct "S" 64, .Memory, none⟩
    | _ => ⟨vtyp, .Memory, none⟩

/-! ## Claim theorems -/

/-- C9: when value and target both have final location `Value`, the emitted
statement is a direct move binding the target's identifier to the value's
lowered expression, with no load or store primitive invoked. -/
theorem assign_value_value (context : FnContext) (t v : FeExpr)
    (i : Identifier) (typ : FixedSize)
    (hlow : context.expr t = .Identifier i)
    (htyp : FixedSize.try_from ((context.expression_attributes t).typ) = some typ)
    (hvl : (context.expression_attributes v).final_location = .Value)
    (htl : (context.expression_attributes t).final_location = .Value) :
    assign context (.Assign t v) = .ok (.Assignment [i] (context.expr v)) := by
  simp [assign, htyp, hvl, htl, hlow, expr_as_ident]

/-- Witness for C9 at a concrete context: `x = y` with both sides
final-`Value` scalars lowers to `x := y`. -/
theorem assign_value_value_witness :
    assign (ctxLocs .Value .Value .Base .Base) (.Assign (.Name "x") (.Name "y")) =
      .ok (.Assignment [⟨"x"⟩] (.Identifier ⟨"y"⟩)) :=
  assign_value_value (ctxLocs .Value .Value .Base .Base) (.Name "x") (.Name "y")
    ⟨"x"⟩ .Base rfl rfl rfl rfl

/-- C7: when the target's final location is `Value` and the value's is
`Memory` (respectively `Storage`), the emitted statement assigns to the
target's identifier the result of a sized scalar load of the resolved type
from the value's memory address (respectively storage slot), and nothing
else. -/
theorem assign_scalar_load (context : FnContext) (t v : FeExpr)
    (i : Identifier) (typ : FixedSize)
    (hlow : context.expr t = .Identifier i)
    (htyp : FixedSize.try_from ((context.expression_attributes t).typ) = some typ)
    (htl : (context.expression_attributes t).final_location = .Value) :
    ((context.expression_attributes v).final_location = .Memory →
      assign context (.Assign t v) =
        .ok (.Assignment [i] (data_operations.mload typ (context.expr v)))) ∧
    (∀ n, (context.expression_attributes v).final_location = .Storage n →
      assign context (.Assign t v) =
        .ok (.Assignment [i] (data_operations.sload typ (context.expr v)))) := by
  constructor
  · intro hvl
    simp [assign, htyp, hvl, htl, hlow, expr_as_ident]
  · intro n hvl
    simp [assign, htyp, hvl, htl, hlow, expr_as_ident]

/-- Witness for C7 at concrete contexts: a memory-resident value loads via
`mloadn`, a storage-resident one via `sloadn`. -/
theorem assign_scalar_load_witness :
    (assign (ctxLocs .Memory .Value .Base .Base) (.Assign (.Name "x") (.Name "y")) =
      .ok (.Assignment [⟨"x"⟩] (data_operations.mload .Base (.Identifier ⟨"y"⟩)))) ∧
    (assign (ctxLocs (.Storage (some 0)) .Value .Base .Base) (.Assign (.Name "x") (.Name "y")) =
      .ok (.Assignment [⟨"x"⟩] (data_operations.sload .Base (.Identifier ⟨"y"⟩)))) :=
  ⟨(assign_scalar_load (ctxLocs .Memory .Value .Base .Base) (.Name "x") (.Name "y")
      ⟨"x"⟩ .Base rfl rfl rfl).1 rfl,
   (assign_scalar_load (ctxLocs (.Storage (some 0)) .Value .Base .Base) (.Name "x") (.Name "y")
      ⟨"x"⟩ .Base rfl rfl rfl).2 (some 0) rfl⟩

/-- C8: when the value's final location is `Value` and the target's is
`Memory` (respectively `Storage`), the emitted statement is a single sized
scalar store of the value expression at the target's memory address
(respectively storage slot), parameterized by the resolved type. -/
theorem assign_scalar_store (context : FnContext) (t v : FeExpr) (typ : FixedSize)
    (htyp : FixedSize.try_from ((context.expression_attributes t).typ) = some typ)
    (hvl : (context.expression_attributes v).final_location = .Value) :
    ((context.expression_attributes t).final_location = .Memory →
      assign context (.Assign t v) =
        .ok (data_operations.mstore typ (context.expr t) (context.expr v))) ∧
    (∀ n, (context.expression_attributes t).final_location = .Storage n →
      assign context (.Assign t v) =
        .ok (data_operations.sstore typ (context.expr t) (context.expr v))) := by
  constructor
  · intro htl
    simp [assign, htyp, hvl, htl]
  · intro n htl
    simp [assign, htyp, hvl, htl]

/-- Witness for C8 at concrete contexts: a `Value` value stores via
`mstoren` into a memory target and via `sstoren` into a storage target. -/
theorem assign_scalar_store_witness :
    (assign (ctxLocs .Value .Memory .Base .Base) (.Assign (.Name "x") (.Name "y")) =
      .ok (data_operations.mstore .Base (.Identifier ⟨"x"⟩) (.Identifier ⟨"y"⟩))) ∧
    (assign (ctxLocs .Value (.Storage (some 1)) .Base .Base) (.Assign (.Name "x") (.Name "y")) =
      .ok (data_operations.sstore .Base (.Identifier ⟨"x"⟩) (.Identifier ⟨"y"⟩))) :=
  ⟨(assign_scalar_store (ctxLocs .Value .Memory .Base .Base) (.Name "x") (.Name "y")
      .Base rfl rfl).1 rfl,
   (assign_scalar_store (ctxLocs .Value (.Storage (some 1)) .Base .Base) (.Name "x") (.Name "y")
      .Base rfl rfl).2 (some 1) rfl⟩

/-- C6: when the value's final location is `Memory` and the target's is
`Storage`, the lowering emits exactly one sized memory-to-storage block
copy of the resolved type; when both are `Storage`, exactly one sized
storage-to-storage block copy; in both cases a single statement with no
per-field statements. -/
theorem assign_block_copy (context : FnContext) (t v : FeExpr) (typ : FixedSize)
    (htyp : FixedSize.try_from ((context.expression_attributes t).typ) = some typ) :
    (∀ n, (context.expression_attributes v).final_location = .Memory →
      (context.expression_attributes t).final_location = .Storage n →
      assign context (.Assign t v) =
        .ok (data_operations.mcopys typ (context.expr t) (context.expr v))) ∧
    (∀ m n, (context.expression_attributes v).final_location = .Storage m →
      (context.expression_attributes t).final_location = .Storage n →
      assign context (.Assign t v) =
        .ok (data_operations.scopys typ (context.expr t) (context.expr v))) := by
  constructor
  · intro n hvl htl
    simp [assign, htyp, hvl, htl]
  · intro m n hvl htl
    simp [assign, htyp, hvl, htl]

/-- Witness for C6 at concrete contexts: an aggregate of 64-byte footprint
is copied by one `mcopys` (memory source) or one `scopys` (storage
source). -/
theorem assign_block_copy_witness :
    (assign (ctxLocs .Memory (.Storage (some 2)) (.Array 64) (.Array 64))
        (.Assign (.Name "x") (.Name "y")) =
      .ok (data_operations.mcopys (.Array 64) (.Identifier ⟨"x"⟩) (.Identifier ⟨"y"⟩))) ∧
    (assign (ctxLocs (.Storage (some 3)) (.Storage (some 2)) (.Array 64) (.Array 64))
        (.Assign (.Name "x") (.Name "y")) =
      .ok (data_operations.scopys (.Array 64) (.Identifier ⟨"x"⟩) (.Identifier ⟨"y"⟩))) :=
  ⟨(assign_block_copy (ctxLocs .Memory (.Storage (some 2)) (.Array 64) (.Array 64))
      (.Name "x") (.Name "y") (.Array 64) rfl).1 (some 2) rfl rfl,
   (assign_block_copy (ctxLocs (.Storage (some 3)) (.Storage (some 2)) (.Array 64) (.Array 64))
      (.Name "x") (.Name "y") (.Array 64) rfl).2 (some 3) (some 2) rfl rfl⟩

/-- C4: when value and target both have final location `Memory` and the
target is a plain identifier (not a field projection whose parent is a
struct), the emitted statement rebinds the target identifier to the
value's lowered address expression, reused unmodified; no load, store, or
copy primitive is invoked. -/
theorem assign_mem_mem_ident (context : FnContext) (t v : FeExpr)
    (i : Identifier) (typ : FixedSize)
    (hlow : context.expr t = .Identifier i)
    (htyp : FixedSize.try_from ((context.expression_attributes t).typ) = some typ)
    (hvl : (context.expression_attributes v).final_location = .Memory)
    (htl : (context.expression_attributes t).final_location = .Memory)
    (hplain : ∀ p a, t = .Attribute p a →
      ∀ sn sz, (context.expression_attributes p).typ ≠ .Struct sn sz) :
    assign context (.Assign t v) = .ok (.Assignment [i] (context.expr v)) := by
  cases t with
  | Name s =>
    simp [assign, htyp, hvl, htl, hlow, expr_as_ident]
  | Subscript a b =>
    simp [assign, htyp, hvl, htl, hlow, expr_as_ident]
  | Attribute p a =>
    cases hp : (context.expression_attributes p).typ with
    | Struct sn sz => exact absurd hp (hplain p a rfl sn sz)
    | Base => simp [assign, htyp, hvl, htl, hlow, expr_as_ident, hp]
    | Array n => simp [assign, htyp, hvl, htl, hlow, expr_as_ident, hp]
    | Map => simp [assign, htyp, hvl, htl, hlow, expr_as_ident, hp]

/-- Witness for C4 at a concrete context: a Memory→Memory assignment to a
plain name rebinds the name to the value's address expression. -/
theorem assign_mem_mem_ident_witness :
    assign (ctxLocs .Memory .Memory .Base .Base) (.Assign (.Name "x") (.Name "y")) =
      .ok (.Assignment [⟨"x"⟩] (.Identifier ⟨"y"⟩)) :=
  assign_mem_mem_ident (ctxLocs .Memory .Memory .Base .Base) (.Name "x") (.Name "y")
    ⟨"x"⟩ .Base rfl rfl rfl rfl (fun _ _ h => nomatch h)

/-- C2: in the Memory→Memory case with a field-projection target whose
parent resolves to a struct, the plain-identifier strategy is not applied:
the target's lowered expression (which must be a function call) has its
call identifier replaced by the same identifier with the `_raw` suffix
appended, its arguments unchanged, and the emitted statement is a sized
store of the value through that raw-accessor call; no load primitive is
invoked. -/
theorem assign_mem_mem_struct_field (context : FnContext) (p : FeExpr) (a : String)
    (v : FeExpr) (f : Identifier) (args : List Expression) (typ : FixedSize)
    (sn : String) (sz : Nat)
    (hlow : context.expr (.Attribute p a) = .FunctionCall f args)
    (htyp : FixedSize.try_from
      ((context.expression_attributes (.Attribute p a)).typ) = some typ)
    (hp : (context.expression_attributes p).typ = .Struct sn sz)
    (hvl : (context.expression_attributes v).final_location = .Memory)
    (htl : (context.expression_attributes (.Attribute p a)).final_location = .Memory) :
    assign context (.Assign (.Attribute p a) v) =
      .ok (.Expression (.FunctionCall ⟨"mstoren"⟩
        [.FunctionCall ⟨f.identifier ++ "_raw"⟩ args, .Literal "32", context.expr v])) := by
  simp [assign, htyp, hp, hvl, htl, hlow, expr_to_raw_ptr_call]

/-- Witness for C2 at a concrete context: assigning into `p.f` with `p` a
memory-resident struct rewrites the accessor call `get_f(pptr)` to
`get_f_raw(pptr)` and stores through it. -/
theorem assign_mem_mem_struct_field_witness :
    assign (ctxField .Base .Base (.FunctionCall ⟨"get_f"⟩ [.Identifier ⟨"pptr"⟩]))
        (.Assign (.Attribute (.Name "p") "f") (.Name "y")) =
      .ok (.Expression (.FunctionCall ⟨"mstoren"⟩
        [.FunctionCall ⟨"get_f" ++ "_raw"⟩ [.Identifier ⟨"pptr"⟩],
          .Literal "32", .Identifier ⟨"y"⟩])) :=
  assign_mem_mem_struct_field
    (ctxField .Base .Base (.FunctionCall ⟨"get_f"⟩ [.Identifier ⟨"pptr"⟩]))
    (.Name "p") "f" (.Name "y") ⟨"get_f"⟩ [.Identifier ⟨"pptr"⟩] .Base "S" 64
    rfl rfl rfl rfl rfl

/-- C5: in the Memory→Memory struct-field case, if the target's lowered
expression is not a function call, the lowering fails with the
internal-invariant error of `expr_to_raw_ptr_call` instead of emitting a
statement. -/
theorem assign_mem_mem_struct_field_shape (context : FnContext) (p : FeExpr)
    (a : String) (v : FeExpr) (typ : FixedSize) (sn : String) (sz : Nat)
    (htyp : FixedSize.try_from
      ((context.expression_attributes (.Attribute p a)).typ) = some typ)
    (hp : (context.expression_attributes p).typ = .Struct sn sz)
    (hvl : (context.expression_attributes v).final_location = .Memory)
    (htl : (context.expression_attributes (.Attribute p a)).final_location = .Memory)
    (hnc : ∀ f args, context.expr (.Attribute p a) ≠ .FunctionCall f args) :
    assign context (.Assign (.Attribute p a) v) =
      .error (.notAFunctionCall (context.expr (.Attribute p a))) := by
  cases hlow : context.expr (.Attribute p a) with
  | FunctionCall f args => exact absurd hlow (hnc f args)
  | Literal s =>
    simp [assign, htyp, hp, hvl, htl, hlow, expr_to_raw_ptr_call]
  | Identifier i =>
    simp [assign, htyp, hp, hvl, htl, hlow, expr_to_raw_ptr_call]

/-- Witness for C5 at a concrete context: when the accessor target lowers
to a bare literal instead of a call, lowering aborts with the
not-a-function-call error. -/
theorem assign_mem_mem_struct_field_shape_witness :
    assign (ctxField .Base .Base (.Literal "7"))
        (.Assign (.Attribute (.Name "p") "f") (.Name "y")) =
      .error (.notAFunctionCall (.Literal "7")) :=
  assign_mem_mem_struct_field_shape (ctxField .Base .Base (.Literal "7"))
    (.Name "p") "f" (.Name "y") .Base "S" 64 rfl rfl rfl rfl
    (fun _ _ h => nomatch h)

/-- `expr_as_ident` errs on every expression that is not a plain
identifier, returning it inside the error. -/
theorem expr_as_ident_not_ident (e : Expression)
    (h : ∀ i, e ≠ .Identifier i) :
    expr_as_ident e = .error (.notAnIdentifier e) := by
  cases e with
  | Identifier i => exact absurd rfl (h i)
  | Literal s => rfl
  | FunctionCall f args => rfl

/-- C10: for every final-location pair lowered as a direct move
(Value→Value, Memory→Value, Storage→Value, and Memory→Memory outside the
struct-field case), lowering aborts with the not-an-identifier
internal-invariant error (the `expr_as_ident` panic) whenever the
target's lowered expression is not a plain identifier; in particular a
Memory→Memory assignment whose target neither lowers to an identifier nor
is a field projection on a struct-typed parent aborts instead of producing
a statement. -/
theorem assign_direct_move_requires_ident (context : FnContext) (t v : FeExpr)
    (typ : FixedSize)
    (htyp : FixedSize.try_from ((context.expression_attributes t).typ) = some typ)
    (hni : ∀ i, context.expr t ≠ .Identifier i)
    (hplain : ∀ p a, t = .Attribute p a →
      ∀ sn sz, (context.expression_attributes p).typ ≠ .Struct sn sz) :
    ((context.expression_attributes v).final_location = .Value ∧
        (context.expression_attributes t).final_location = .Value →
      assign context (.Assign t v) = .error (.notAnIdentifier (context.expr t))) ∧
    ((context.expression_attributes v).final_location = .Memory ∧
        (context.expression_attributes t).final_location = .Value →
      assign context (.Assign t v) = .error (.notAnIdentifier (context.expr t))) ∧
    (∀ n, (context.expression_attributes v).final_location = .Storage n ∧
        (context.expression_attributes t).final_location = .Value →
      assign context (.Assign t v) = .error (.notAnIdentifier (context.expr t))) ∧
    ((context.expression_attributes v).final_location = .Memory ∧
        (context.expression_attributes t).final_location = .Memory →
      assign context (.Assign t v) = .error (.notAnIdentifier (context.expr t))) := by
  have hid := expr_as_ident_not_ident _ hni
  refine ⟨?_, ?_, ?_, ?_⟩
  · rintro ⟨hvl, htl⟩
    simp [assign, htyp, hvl, htl, hid]
  · rintro ⟨hvl, htl⟩
    simp [assign, htyp, hvl, htl, hid]
  · rintro n ⟨hvl, htl⟩
    simp [assign, htyp, hvl, htl, hid]
  · rintro ⟨hvl, htl⟩
    cases t with
    | Name s => simp [assign, htyp, hvl, htl, hid]
    | Subscript a b => simp [assign, htyp, hvl, htl, hid]
    | Attribute p a =>
      cases hp : (context.expression_attributes p).typ with
      | Struct sn sz => exact absurd hp (hplain p a rfl sn sz)
      | Base => simp [assign, htyp, hvl, htl, hid, hp]
      | Array n => simp [assign, htyp, hvl, htl, hid, hp]
      | Map => simp [assign, htyp, hvl, htl, hid, hp]

/-- A context whose expression lowering yields a literal for every node:
its lowered targets are never plain identifiers. -/
def ctxLit (vl tl : Location) : FnContext where
  expr := fun _ => .Literal "0"
  expression_attributes := fun e =>
    match e with
    | .Name "x" => ⟨.Base, tl, none⟩
    | _ => ⟨.Base, vl, none⟩

/-- Witness for C10 at concrete contexts: a Value→Value and a
Memory→Memory assignment whose target lowers to a literal both abort with
the not-an-identifier error. -/
theorem assign_direct_move_requires_ident_witness :
    (assign (ctxLit .Value .Value) (.Assign (.Name "x") (.Name "y")) =
      .error (.notAnIdentifier (.Literal "0"))) ∧
    (assign (ctxLit .Memory .Memory) (.Assign (.Name "x") (.Name "y")) =
      .error (.notAnIdentifier (.Literal "0"))) :=
  ⟨(assign_direct_move_requires_ident (ctxLit .Value .Value) (.Name "x") (.Name "y")
      .Base rfl (fun _ h => nomatch h) (fun _ _ h => nomatch h)).1 ⟨rfl, rfl⟩,
   (assign_direct_move_requires_ident (ctxLit .Memory .Memory) (.Name "x") (.Name "y")
      .Base rfl (fun _ h => nomatch h) (fun _ _ h => nomatch h)).2.2.2 ⟨rfl, rfl⟩⟩

/-- C1: over the nine final-location pairs of (value, target), and for a
well-formed input (a plain-name target lowering to an identifier, with a
fixed-size resolved type), the lowering produces a statement for every
pair except Storage→Memory, which deterministically fails with the
`unreachable!("raw sto to mem assign")` internal-invariant error and emits
no statement. -/
theorem assign_exhaustive (context : FnContext) (s : String) (v : FeExpr)
    (i : Identifier) (typ : FixedSize)
    (hlow : context.expr (.Name s) = .Identifier i)
    (htyp : FixedSize.try_from
      ((context.expression_attributes (.Name s)).typ) = some typ) :
    ((∃ n, (context.expression_attributes v).final_location = .Storage n) ∧
        (context.expression_attributes (.Name s)).final_location = .Memory →
      assign context (.Assign (.Name s) v) = .error .rawStoToMem) ∧
    (¬ ((∃ n, (context.expression_attributes v).final_location = .Storage n) ∧
        (context.expression_attributes (.Name s)).final_location = .Memory) →
      ∃ st, assign context (.Assign (.Name s) v) = .ok st) := by
  constructor
  · rintro ⟨⟨n, hvl⟩, htl⟩
    simp [assign, htyp, hvl, htl]
  · intro hne
    rcases hvl : (context.expression_attributes v).final_location with _ | _ | n
    all_goals rcases htl :
      (context.expression_attributes (.Name s)).final_location with _ | _ | m
    · exact ⟨_, by simp [assign, htyp, hvl, htl, hlow, expr_as_ident]; rfl⟩
    · exact ⟨_, by simp [assign, htyp, hvl, htl, hlow, expr_as_ident]; rfl⟩
    · exact ⟨_, by simp [assign, htyp, hvl, htl, hlow, expr_as_ident]; rfl⟩
    · exact ⟨_, by simp [assign, htyp, hvl, htl, hlow, expr_as_ident]; rfl⟩
    · exact ⟨_, by simp [assign, htyp, hvl, htl, hlow, expr_as_ident]; rfl⟩
    · exact ⟨_, by simp [assign, htyp, hvl, htl, hlow, expr_as_ident]; rfl⟩
    · exact ⟨_, by simp [assign, htyp, hvl, htl, hlow, expr_as_ident]; rfl⟩
    · exact absurd ⟨⟨n, hvl⟩, htl⟩ hne
    · exact ⟨_, by simp [assign, htyp, hvl, htl, hlow, expr_as_ident]; rfl⟩

/-- Witness for C1 at concrete contexts: a Storage→Memory pair fails with
the invariant error, while a Memory→Storage pair succeeds. -/
theorem assign_exhaustive_witness :
    (assign (ctxLocs (.Storage none) .Memory .Base .Base)
        (.Assign (.Name "x") (.Name "y")) = .error .rawStoToMem) ∧
    (∃ st, assign (ctxLocs .Memory (.Storage none) .Base .Base)
        (.Assign (.Name "x") (.Name "y")) = .ok st) :=
  ⟨(assign_exhaustive (ctxLocs (.Storage none) .Memory .Base .Base) "x" (.Name "y")
      ⟨"x"⟩ .Base rfl rfl).1 ⟨⟨none, rfl⟩, rfl⟩,
   (assign_exhaustive (ctxLocs .Memory (.Storage none) .Base .Base) "x" (.Name "y")
      ⟨"x"⟩ .Base rfl rfl).2 (fun h => nomatch h.2)⟩

/-- C3 counterexample: in the Memory→Memory struct-field aliasing case the
emitted store is parameterized by the constant `32`, not by the resolved
type's footprint — here the target type is a 64-byte aggregate, yet the
emitted `mstoren` carries the literal `"32"`, and `"32" ≠ "64"`. -/
theorem assign_sizing_counterexample :
    assign (ctxField .Base (.Array 64) (.FunctionCall ⟨"get_f"⟩ [.Identifier ⟨"pptr"⟩]))
        (.Assign (.Attribute (.Name "p") "f") (.Name "y")) =
      .ok (.Expression (.FunctionCall ⟨"mstoren"⟩
        [.FunctionCall ⟨"get_f" ++ "_raw"⟩ [.Identifier ⟨"pptr"⟩],
          .Literal "32", .Identifier ⟨"y"⟩])) ∧
    FixedSize.try_from
      ((ctxField .Base (.Array 64)
          (.FunctionCall ⟨"get_f"⟩ [.Identifier ⟨"pptr"⟩])).expression_attributes
        (.Attribute (.Name "p") "f")).typ = some (.Array 64) ∧
    primSizeArg (.Expression (.FunctionCall ⟨"mstoren"⟩
      [.FunctionCall ⟨"get_f" ++ "_raw"⟩ [.Identifier ⟨"pptr"⟩],
        .Literal "32", .Identifier ⟨"y"⟩])) = some "32" ∧
    toString (FixedSize.size (.Array 64)) = "64" ∧
    ("32" : String) ≠ "64" := by
  refine ⟨rfl, rfl, rfl, rfl, by decide⟩

/-- C3 (amended): for every final-location pair whose lowering invokes a
load, store, or copy primitive — all pairs except Value→Value, the
Memory→Memory direct-move, and the failing Storage→Memory — the primitive
is parameterized with exactly the resolved type's footprint; the one
exception is the sized store emitted in the Memory→Memory struct-field
aliasing case, which is parameterized with the constant word size `32`
independent of the resolved type. -/
theorem assign_sizing_fidelity :
    (∀ (context : FnContext) (t v : FeExpr) (i : Identifier) (typ : FixedSize),
      context.expr t = .Identifier i →
      FixedSize.try_from ((context.expression_attributes t).typ) = some typ →
      ¬((context.expression_attributes v).final_location = .Value ∧
        (context.expression_attributes t).final_location = .Value) →
      ¬((context.expression_attributes v).final_location = .Memory ∧
        (context.expression_attributes t).final_location = .Memory) →
      (∀ n, ¬((context.expression_attributes v).final_location = .Storage n ∧
        (context.expression_attributes t).final_location = .Memory)) →
      ∃ st, assign context (.Assign t v) = .ok st ∧
        primSizeArg st = some (toString typ.size)) ∧
    (∀ (context : FnContext) (p : FeExpr) (a : String) (v : FeExpr)
        (f : Identifier) (args : List Expression) (typ : FixedSize)
        (sn : String) (sz : Nat),
      context.expr (.Attribute p a) = .FunctionCall f args →
      FixedSize.try_from
        ((context.expression_attributes (.Attribute p a)).typ) = some typ →
      (context.expression_attributes p).typ = .Struct sn sz →
      (context.expression_attributes v).final_location = .Memory →
      (context.expression_attributes (.Attribute p a)).final_location = .Memory →
      ∃ st, assign context (.Assign (.Attribute p a) v) = .ok st ∧
        primSizeArg st = some "32") := by
  constructor
  · intro context t v i typ hlow htyp hVV hMM hSM
    rcases hvl : (context.expression_attributes v).final_location with _ | _ | n
    all_goals rcases htl : (context.expression_attributes t).final_location with _ | _ | m
    · exact absurd ⟨hvl, htl⟩ hVV
    · exact ⟨data_operations.mstore typ (context.expr t) (context.expr v),
        by simp [assign, htyp, hvl, htl], rfl⟩
    · exact ⟨data_operations.sstore typ (context.expr t) (context.expr v),
        by simp [assign, htyp, hvl, htl], rfl⟩
    · exact ⟨.Assignment [i] (data_operations.mload typ (context.expr v)),
        by simp [assign, htyp, hvl, htl, hlow, expr_as_ident], rfl⟩
    · exact absurd ⟨hvl, htl⟩ hMM
    · exact ⟨data_operations.mcopys typ (context.expr t) (context.expr v),
        by simp [assign, htyp, hvl, htl], rfl⟩
    · exact ⟨.Assignment [i] (data_operations.sload typ (context.expr v)),
        by simp [assign, htyp, hvl, htl, hlow, expr_as_ident], rfl⟩
    · exact absurd ⟨hvl, htl⟩ (hSM n)
    · exact ⟨data_operations.scopys typ (context.expr t) (context.expr v),
        by simp [assign, htyp, hvl, htl], rfl⟩
  · intro context p a v f args typ sn sz hlow htyp hp hvl htl
    exact ⟨.Expression (.FunctionCall ⟨"mstoren"⟩
        [.FunctionCall ⟨f.identifier ++ "_raw"⟩ args, .Literal "32", context.expr v]),
      by simp [assign, htyp, hp, hvl, htl, hlow, expr_to_raw_ptr_call], rfl⟩

/-- Witness for the amended C3 at concrete contexts: a Memory→Storage
copy of a 64-byte aggregate carries the footprint literal `"64"`, while
the struct-field aliasing store carries the constant `"32"`. -/
theorem assign_sizing_fidelity_witness :
    (∃ st, assign (ctxLocs .Memory (.Storage none) .Base (.Array 64))
        (.Assign (.Name "x") (.Name "y")) = .ok st ∧
      primSizeArg st = some (toString (FixedSize.size (.Array 64)))) ∧
    (∃ st, assign (ctxField .Base .Base (.FunctionCall ⟨"get_f"⟩ [.Identifier ⟨"pptr"⟩]))
        (.Assign (.Attribute (.Name "p") "f") (.Name "y")) = .ok st ∧
      primSizeArg st = some "32") :=
  ⟨assign_sizing_fidelity.1 (ctxLocs .Memory (.Storage none) .Base (.Array 64))
      (.Name "x") (.Name "y") ⟨"x"⟩ (.Array 64) rfl rfl
      (fun h => nomatch h.1) (fun h => nomatch h.2) (fun _ h => nomatch h.1),
   assign_sizing_fidelity.2 (ctxField .Base .Base
        (.FunctionCall ⟨"get_f"⟩ [.Identifier ⟨"pptr"⟩]))
      (.Name "p") "f" (.Name "y") ⟨"get_f"⟩ [.Identifier ⟨"pptr"⟩] .Base "S" 64
      rfl rfl rfl rfl rfl⟩

end Yulgen
